import Mathlib

/-!
Verification development for the qcrawl request-dispatch queue subsystem.

Embedded components:
* the WorkItem codec (`src/qcrawl/core/_msgspec.py`): `RequestStruct`,
  `encode_request`, `decode_request`, over an executable model of the
  MessagePack layer (`msgpack_encode` / `msgpack_decode`);
* the local queue (`MemoryPriorityQueue`) and the distributed queue
  (`RedisQueue`), modelled from the spec (their modules are not in `src/`;
  only their tests are) with the repository's tests as behavioural anchors;
* the backend factory's configuration-key validation
  (`src/qcrawl/core/queues/factory.py`).

Bytes on the wire are modelled as `List Nat`; Python mappings as
association lists; machine integers as `Int`/`Nat` (no overflow is
relevant to any property proved here).
-/

namespace QCrawl

/-- Wire bytes, abstracted as a list of naturals. -/
abbrev Bytes := List Nat

/-- A Python binary value: `bytes` or `bytearray` (the two binary types
`decode_request` distinguishes at `_msgspec.py:78-80`). -/
inductive PyBin where
  | bytes (data : List Nat)
  | bytearray (data : List Nat)
deriving DecidableEq, Repr

/-- The underlying byte content of a binary value. -/
def PyBin.data : PyBin → List Nat
  | .bytes d => d
  | .bytearray d => d

/-- Whether a binary value is of the `bytes` type (not `bytearray`). -/
def PyBin.isBytes : PyBin → Bool
  | .bytes _ => true
  | .bytearray _ => false

/-- A metadata value stored in a request's free-form `meta` mapping. -/
inductive PyValue where
  | int (i : Int)
  | str (s : String)
  | bool (b : Bool)
deriving DecidableEq, Repr

/-- A string-keyed, string-valued mapping (headers, cookies). -/
abbrev StrDict := List (String × String)

/-- A string-keyed, free-form-valued mapping (request `meta`). -/
abbrev MetaDict := List (String × PyValue)

/-- Python `d or \x7b\x7d` on an optional dict: `None` (and the empty dict,
which is falsy and yields the same result) becomes the empty mapping. -/
def pyOrEmpty {α : Type} : Option (List α) → List α
  | none => []
  | some l => l

/-! ## MessagePack layer

An executable model of `msgspec.msgpack.encode` / `msgspec.msgpack.decode`
specialised to `RequestStruct`: a self-delimiting field-by-field binary
encoding with a total decoder that fails (→ `DecodeError`) on any input
that does not conform to the schema. -/

/-- Encode the raw bytes of a binary payload with a length prefix. -/
def encRaw (d : List Nat) : Bytes := d.length :: d

/-- Read `n` raw wire elements. -/
def decRaw : Nat → Bytes → Option (List Nat × Bytes)
  | 0, b => some ([], b)
  | _ + 1, [] => none
  | n + 1, x :: b => (decRaw n b).map (fun p => (x :: p.1, p.2))

/-- Encode a string as a length-prefixed run of character codes. -/
def encStr (s : String) : Bytes := s.data.length :: s.data.map Char.toNat

/-- Decode a length-prefixed string. -/
def decStr : Bytes → Option (String × Bytes)
  | [] => none
  | n :: b => (decRaw n b).map (fun p => (String.mk (p.1.map Char.ofNat), p.2))

/-- Encode an integer as a sign tag plus magnitude. -/
def encInt (i : Int) : Bytes := if 0 ≤ i then [0, i.toNat] else [1, (-i).toNat]

/-- Decode a sign-tagged integer. -/
def decInt : Bytes → Option (Int × Bytes)
  | 0 :: m :: rest => some ((m : Int), rest)
  | 1 :: m :: rest => some (-(m : Int), rest)
  | _ => none

/-- Encode an optional value with a presence tag. -/
def encOpt {α : Type} (enc : α → Bytes) : Option α → Bytes
  | none => [0]
  | some a => 1 :: enc a

/-- Decode a presence-tagged optional value. -/
def decOpt {α : Type} (dec : Bytes → Option (α × Bytes)) : Bytes → Option (Option α × Bytes)
  | 0 :: rest => some (none, rest)
  | 1 :: rest => (dec rest).map (fun p => (some p.1, p.2))
  | _ => none

/-- Encode a pair by concatenating the component encodings. -/
def encPair {α β : Type} (enc₁ : α → Bytes) (enc₂ : β → Bytes) (p : α × β) : Bytes :=
  enc₁ p.1 ++ enc₂ p.2

/-- Decode a pair componentwise. -/
def decPair {α β : Type} (dec₁ : Bytes → Option (α × Bytes)) (dec₂ : Bytes → Option (β × Bytes))
    (b : Bytes) : Option ((α × β) × Bytes) :=
  match dec₁ b with
  | none => none
  | some (a, b₁) =>
    match dec₂ b₁ with
    | none => none
    | some (c, b₂) => some ((a, c), b₂)

/-- Encode every element of a list, concatenated. -/
def encEach {α : Type} (enc : α → Bytes) : List α → Bytes
  | [] => []
  | a :: l => enc a ++ encEach enc l

/-- Decode exactly `n` consecutive elements. -/
def decCount {α : Type} (dec : Bytes → Option (α × Bytes)) : Nat → Bytes → Option (List α × Bytes)
  | 0, b => some ([], b)
  | n + 1, b =>
    match dec b with
    | none => none
    | some (a, b₁) => (decCount dec n b₁).map (fun p => (a :: p.1, p.2))

/-- Encode a list as a length-prefixed run of element encodings. -/
def encListOf {α : Type} (enc : α → Bytes) (l : List α) : Bytes :=
  l.length :: encEach enc l

/-- Decode a length-prefixed list. -/
def decListOf {α : Type} (dec : Bytes → Option (α × Bytes)) : Bytes → Option (List α × Bytes)
  | [] => none
  | n :: b => decCount dec n b

/-- Encode a binary value: type tag, then length-prefixed bytes. -/
def encBin : PyBin → Bytes
  | .bytes d => 0 :: encRaw d
  | .bytearray d => 1 :: encRaw d

/-- Decode a tagged binary value. -/
def decBin : Bytes → Option (PyBin × Bytes)
  | 0 :: n :: b => (decRaw n b).map (fun p => (PyBin.bytes p.1, p.2))
  | 1 :: n :: b => (decRaw n b).map (fun p => (PyBin.bytearray p.1, p.2))
  | _ => none

/-- Encode a metadata value with a constructor tag. -/
def encPyValue : PyValue → Bytes
  | .int i => 0 :: encInt i
  | .str s => 1 :: encStr s
  | .bool b => [2, cond b 1 0]

/-- Decode a tagged metadata value. -/
def decPyValue : Bytes → Option (PyValue × Bytes)
  | 0 :: b => (decInt b).map (fun p => (PyValue.int p.1, p.2))
  | 1 :: b => (decStr b).map (fun p => (PyValue.str p.1, p.2))
  | 2 :: 0 :: rest => some (PyValue.bool false, rest)
  | 2 :: 1 :: rest => some (PyValue.bool true, rest)
  | _ => none

/-- Encode a headers/cookies mapping. -/
def encStrDict : StrDict → Bytes := encListOf (encPair encStr encStr)

/-- Decode a headers/cookies mapping. -/
def decStrDict : Bytes → Option (StrDict × Bytes) := decListOf (decPair decStr decStr)

/-- Encode a metadata mapping. -/
def encMetaDict : MetaDict → Bytes := encListOf (encPair encStr encPyValue)

/-- Decode a metadata mapping. -/
def decMetaDict : Bytes → Option (MetaDict × Bytes) := decListOf (decPair decStr decPyValue)

/-! ## RequestStruct and the struct codec -/

/-- The MessagePack-serializable struct mirroring `core.Request`
(`src/qcrawl/core/_msgspec.py:16-29`), with the declared field defaults. -/
structure RequestStruct where
  url : String
  method : String := "GET"
  headers : Option StrDict := none
  cookies : Option StrDict := none
  body : Option PyBin := none
  priority : Int := 0
  retries : Int := 0
  timeout_ms : Int := 10000
  proxy : Option String := none
  meta : Option MetaDict := none
  ts : Int := 0
deriving DecidableEq, Repr

/-- Model of `msgspec.msgpack.encode` on a `RequestStruct`: the fields in
declaration order, each self-delimiting. -/
def msgpack_encode (s : RequestStruct) : Bytes :=
  encStr s.url ++ encStr s.method ++ encOpt encStrDict s.headers ++
  encOpt encStrDict s.cookies ++ encOpt encBin s.body ++ encInt s.priority ++
  encInt s.retries ++ encInt s.timeout_ms ++ encOpt encStr s.proxy ++
  encOpt encMetaDict s.meta ++ encInt s.ts

/-- Decode the fields of a `RequestStruct` in declaration order. -/
def decStructFields (b : Bytes) : Option (RequestStruct × Bytes) :=
  match decStr b with
  | none => none
  | some (url, b) =>
  match decStr b with
  | none => none
  | some (method, b) =>
  match decOpt decStrDict b with
  | none => none
  | some (headers, b) =>
  match decOpt decStrDict b with
  | none => none
  | some (cookies, b) =>
  match decOpt decBin b with
  | none => none
  | some (body, b) =>
  match decInt b with
  | none => none
  | some (priority, b) =>
  match decInt b with
  | none => none
  | some (retries, b) =>
  match decInt b with
  | none => none
  | some (timeout_ms, b) =>
  match decOpt decStr b with
  | none => none
  | some (proxy, b) =>
  match decOpt decMetaDict b with
  | none => none
  | some (meta, b) =>
  match decInt b with
  | none => none
  | some (ts, b) =>
    some ({ url := url, method := method, headers := headers, cookies := cookies,
            body := body, priority := priority, retries := retries,
            timeout_ms := timeout_ms, proxy := proxy, meta := meta, ts := ts }, b)

/-- Model of `msgspec.msgpack.decode(data, type=RequestStruct)`: a total decoder
that yields `none` (→ `DecodeError` in `decode_request`) on any byte string
that is malformed or does not conform to the declared schema. -/
def msgpack_decode (b : Bytes) : Option RequestStruct :=
  match decStructFields b with
  | some (s, []) => some s
  | _ => none

/-! ## The Request object and the request codec -/

/-- Modelled from the spec: `qcrawl.core.request.Request` is not under
`src/`; the WorkItem of spec §3 / §6 is: target locator, method, header
mapping, optional cookie mapping, optional binary body, integer priority
(default 0), retry counter, timeout duration (ms, default 10000), optional
proxy address, metadata mapping, creation timestamp (ms, 0 = unset,
stamped at encode time if absent). -/
structure Request where
  url : String
  method : String := "GET"
  headers : StrDict := []
  cookies : Option StrDict := none
  body : Option PyBin := none
  priority : Int := 0
  retries : Int := 0
  timeout_ms : Int := 10000
  proxy : Option String := none
  meta : MetaDict := []
  ts : Int := 0
deriving DecidableEq, Repr

/-- The struct built by `encode_request` (`_msgspec.py:42-54`). `now_ms` is
the value of `int(time.time() * 1000)`: the Python `ts or now` stamps the
clock when the item's own timestamp is falsy (0/unset). -/
def structOfRequest (now_ms : Int) (r : Request) : RequestStruct :=
  { url := r.url
    method := r.method
    headers := some r.headers
    cookies := r.cookies
    body := r.body
    priority := r.priority
    retries := r.retries
    timeout_ms := r.timeout_ms
    proxy := r.proxy
    meta := some r.meta
    ts := if r.ts = 0 then now_ms else r.ts }

/-- The codec's `encode_request` (`_msgspec.py:32-55`): build the struct, encode it. -/
def encode_request (now_ms : Int) (r : Request) : Bytes :=
  msgpack_encode (structOfRequest now_ms r)

/-- The `bytearray` normalisation of `decode_request`
(`_msgspec.py:78-80`): a `bytearray` body becomes `bytes`. -/
def normBody : Option PyBin → Option PyBin
  | some (.bytearray d) => some (.bytes d)
  | ob => ob

/-- The `Request(...)` construction at the end of `decode_request`
(`_msgspec.py:82-89`): only url, method, headers, body, priority and meta
are passed; every other field takes the constructor default, and absent
headers/meta become empty mappings. -/
def requestFromStruct (s : RequestStruct) : Request :=
  { url := s.url
    method := s.method
    headers := pyOrEmpty s.headers
    body := normBody s.body
    priority := s.priority
    meta := pyOrEmpty s.meta }

/-- A dynamically-typed Python value handed to `decode_request`. -/
inductive PyObj where
  | bytes (b : Bytes)
  | bytearray (b : Bytes)
  | str (s : String)
  | int (i : Int)
  | pynone
deriving DecidableEq, Repr

/-- The check `isinstance(data, bytes)`. -/
def PyObj.isBytesObj : PyObj → Bool
  | .bytes _ => true
  | _ => false

/-- The failure classes `decode_request` can raise. -/
inductive CodecError where
  | typeError (msg : String)
  | decodeError
deriving DecidableEq, Repr

/-- The codec's `decode_request` (`_msgspec.py:58-89`): non-bytes input raises
`TypeError`; bytes that fail schema decoding raise `msgspec.DecodeError`;
otherwise the reconstructed `Request` is returned. -/
def decode_request (data : PyObj) : Except CodecError Request :=
  match data with
  | .bytes b =>
    match msgpack_decode b with
    | none => .error .decodeError
    | some s => .ok (requestFromStruct s)
  | _ => .error (.typeError "decode_request expects bytes")

/-! ## Ordered insertion, shared by both queue backends

Both backends keep ready entries in a sequence ordered by a composite key
of (priority, enqueue sequence number); `get` pops the front. Insertion
keeps the sequence ordered. -/

/-- Insert `a` before the first element `x` with `le a x`; append otherwise. -/
def insertBy {α : Type} (le : α → α → Bool) (a : α) : List α → List α
  | [] => [a]
  | x :: xs => if le a x then a :: x :: xs else x :: insertBy le a xs

/-- A ready entry: enqueue-time priority, sequence number, the item. -/
abbrev Entry := Int × Nat × Request

/-- Local-queue ordering key (spec §4.2): ascending priority, then
ascending sequence number (strict FIFO tie-break). -/
def memLe (a b : Entry) : Bool :=
  decide (a.1 < b.1) || (decide (a.1 = b.1) && decide (a.2.1 ≤ b.2.1))

/-- Distributed-queue ordering key, per the recorded behaviour
(`test_redis_priority_ordering`): descending priority — higher numeric
priority served first — then ascending sequence number. -/
def redisLe (a b : Entry) : Bool :=
  decide (b.1 < a.1) || (decide (a.1 = b.1) && decide (a.2.1 ≤ b.2.1))

/-! ## The local queue

Modelled from the spec: `qcrawl.core.queues.memory.MemoryPriorityQueue` is
not under `src/` (only its tests are). Spec §4.2/§4.1/§5: ready entries
ordered by ascending (priority, sequence); `maxsize` 0 = unbounded,
negative rejected at construction (capacity/Value error), unrecognized
constructor options rejected (TypeError); `put` after `close()` is a
silent no-op; `get` on a closed empty queue yields the cancellation
outcome, and drains remaining entries first. Suspension (bounded `put`,
`get` on an open empty queue) is modelled as an explicit `wouldBlock`
outcome. The payload codec (`Request.to_bytes`/`from_bytes`, also not in
`src/`) round-trips per its contract, so entries store the item directly. -/

/-- Errors a Python constructor can raise. -/
inductive PyError where
  | typeError (msg : String)
  | valueError (msg : String)
deriving DecidableEq, Repr

/-- State of the in-process priority queue. -/
structure MemoryPriorityQueue where
  heap : List Entry := []
  counter : Nat := 0
  maxsize : Int := 0
  closed : Bool := false
deriving DecidableEq, Repr

/-- Modelled from the spec: `MemoryPriorityQueue(maxsize=...)`.
`unexpected_kwargs` are the names of unrecognized keyword arguments, which
Python rejects with `TypeError` at call time; a negative `maxsize` is
rejected with `ValueError` (the capacity error of the tests). -/
def MemoryPriorityQueue.create (maxsize : Int) (unexpected_kwargs : List String) :
    Except PyError MemoryPriorityQueue :=
  if unexpected_kwargs ≠ [] then .error (.typeError "unexpected keyword arguments")
  else if maxsize < 0 then .error (.valueError "maxsize must be non-negative")
  else .ok { maxsize := maxsize }

/-- Outcome of `put` on the local queue: the new state, or suspension of
the caller while a bounded queue is at capacity. -/
inductive MemPutResult where
  | ok (q : MemoryPriorityQueue)
  | wouldBlock
deriving DecidableEq, Repr

/-- Operation `put(item, priority=None)`: silent no-op when closed; suspends when a
bounded queue is full; otherwise inserts at (priority, next sequence). The
caller-supplied priority takes precedence over the item's own. -/
def MemoryPriorityQueue.put (q : MemoryPriorityQueue) (item : Request)
    (priority : Option Int) : MemPutResult :=
  if q.closed then .ok q
  else if 0 < q.maxsize ∧ q.maxsize ≤ (q.heap.length : Int) then .wouldBlock
  else .ok { q with
    heap := insertBy memLe (priority.getD item.priority, q.counter, item) q.heap,
    counter := q.counter + 1 }

/-- Outcome of `get` on the local queue: an item, the cooperative
cancellation signalled on a closed empty queue, or suspension while the
queue is open and empty. -/
inductive MemGetResult where
  | item (r : Request) (q : MemoryPriorityQueue)
  | cancelled
  | wouldBlock
deriving DecidableEq, Repr

/-- Operation `get()`: pops the best-ranked ready entry; a closed empty
queue yields the cancellation outcome; an open empty queue suspends. -/
def MemoryPriorityQueue.get (q : MemoryPriorityQueue) : MemGetResult :=
  match q.heap with
  | [] => if q.closed then .cancelled else .wouldBlock
  | e :: rest => .item e.2.2 { q with heap := rest }

/-- Operation `size()`: the number of ready entries. -/
def MemoryPriorityQueue.size (q : MemoryPriorityQueue) : Nat := q.heap.length

/-- Operation `close()`: idempotent transition to the terminal state. -/
def MemoryPriorityQueue.close (q : MemoryPriorityQueue) : MemoryPriorityQueue :=
  { q with closed := true }

/-- Operation `clear()`: removes all entries. -/
def MemoryPriorityQueue.clear (q : MemoryPriorityQueue) : MemoryPriorityQueue :=
  { q with heap := [] }

/-- The freshly-constructed default local queue. -/
def memFresh : MemoryPriorityQueue := {}

/-- The state after one `put(item, priority)` call, keeping the previous
state when the put suspends (`wouldBlock`). -/
def memPutStep (q : MemoryPriorityQueue) (r : Request) (p : Int) : MemoryPriorityQueue :=
  match q.put r (some p) with
  | .ok q' => q'
  | .wouldBlock => q

/-- Apply a sequence of `put(item, priority)` calls. -/
def memPutAll : MemoryPriorityQueue → List (Request × Int) → MemoryPriorityQueue
  | q, [] => q
  | q, (r, p) :: rest => memPutAll (memPutStep q r p) rest

/-- Repeatedly `get` until no item is returned, with explicit fuel. -/
def memDrainFuel : Nat → MemoryPriorityQueue → List Request
  | 0, _ => []
  | n + 1, q =>
    match q.get with
    | .item r q' => r :: memDrainFuel n q'
    | _ => []

/-- The full sequence of items obtained by repeated `get`. -/
def memDrain (q : MemoryPriorityQueue) : List Request :=
  memDrainFuel q.heap.length q

/-! ## The distributed queue

Modelled from the spec: `qcrawl.core.queues.redis.RedisQueue` is not under
`src/` (only its tests are). Spec §4.3 with the repository's tests as the
behavioural anchor: ready entries in a sorted structure keyed by a
composite (priority, sequence) score — with the priority direction that
`test_redis_priority_ordering` records, higher numeric priority first;
atomic dedupe by fingerprint with optional priority-update-on-duplicate;
`size()` counts ready entries. Lease bookkeeping, TTLs and the connection
layer are orthogonal to the claims proved here and are elided; the atomic
check-and-set of a `put` is one state transition. -/

/-- A dedupe fingerprint. Modelled from the spec (§3): a deterministic
digest over the normalized (method, locator, body); the digest is modelled
by the normalized tuple itself (an injective stand-in — hash truncation
and collisions are out of scope). -/
abbrev Fingerprint := String × String × Option (List Nat)

/-- The fingerprint of a request. -/
def Request.fingerprint (r : Request) : Fingerprint :=
  (r.method, r.url, r.body.map PyBin.data)

/-- State of the distributed queue (one namespace). -/
structure RedisQueue where
  entries : List Entry := []
  fingerprints : List Fingerprint := []
  counter : Nat := 0
  dedupe : Bool := false
  update_priority : Bool := false
  closed : Bool := false
deriving DecidableEq, Repr

/-- Re-rank the already-queued entry with fingerprint `fp` at the new
priority `p`, keeping its sequence number (the priority-update-on-duplicate
path of spec §4.3). -/
def redisUpdatePrio (fp : Fingerprint) (p : Int) (l : List Entry) : List Entry :=
  match l.find? (fun e => decide (e.2.2.fingerprint = fp)) with
  | none => l
  | some e => insertBy redisLe (p, e.2.1, e.2.2) (l.erase e)

/-- Operation `put(item, priority=None)`: no-op when closed; with dedupe enabled, a
known fingerprint either updates the existing entry's priority
(`update_priority`) or is dropped; otherwise the entry is inserted at
(priority, next sequence) and the fingerprint recorded — one atomic
transition. -/
def RedisQueue.put (q : RedisQueue) (item : Request) (priority : Option Int) : RedisQueue :=
  if q.closed then q
  else
    let p := priority.getD item.priority
    let e : Entry := (p, q.counter, item)
    if q.dedupe then
      if item.fingerprint ∈ q.fingerprints then
        if q.update_priority then
          { q with entries := redisUpdatePrio item.fingerprint p q.entries }
        else q
      else
        { q with entries := insertBy redisLe e q.entries,
                 fingerprints := item.fingerprint :: q.fingerprints,
                 counter := q.counter + 1 }
    else
      { q with entries := insertBy redisLe e q.entries, counter := q.counter + 1 }

/-- Outcome of `get` on the distributed queue. -/
inductive RedisGetResult where
  | item (r : Request) (q : RedisQueue)
  | cancelled
  | wouldBlock
deriving DecidableEq, Repr

/-- Operation `get()`: pops the best-ranked ready entry; a closed empty
queue yields the cancellation outcome; an open empty queue waits (timeout
elided). -/
def RedisQueue.get (q : RedisQueue) : RedisGetResult :=
  match q.entries with
  | [] => if q.closed then .cancelled else .wouldBlock
  | e :: rest => .item e.2.2 { q with entries := rest }

/-- Operation `size()`: the number of ready entries (leased entries excluded). -/
def RedisQueue.size (q : RedisQueue) : Nat := q.entries.length

/-- Operation `close()`: terminal; releases the connection, never deletes data. -/
def RedisQueue.close (q : RedisQueue) : RedisQueue := { q with closed := true }

/-- Operation `clear()`: removes entries and dedupe bookkeeping in this namespace. -/
def RedisQueue.clear (q : RedisQueue) : RedisQueue :=
  { q with entries := [], fingerprints := [] }

/-- A fresh distributed queue with dedupe disabled (the test fixture). -/
def redisFresh : RedisQueue := {}

/-- A fresh distributed queue with dedupe enabled. -/
def redisFreshDedupe : RedisQueue := { dedupe := true }

/-- A fresh distributed queue with dedupe and priority-update-on-duplicate. -/
def redisFreshDedupeUp : RedisQueue := { dedupe := true, update_priority := true }

/-- Apply a sequence of `put(item, priority)` calls. -/
def redisPutAll : RedisQueue → List (Request × Int) → RedisQueue
  | q, [] => q
  | q, (r, p) :: rest => redisPutAll (q.put r (some p)) rest

/-- Repeatedly `get` until no item is returned, with explicit fuel. -/
def redisDrainFuel : Nat → RedisQueue → List Request
  | 0, _ => []
  | n + 1, q =>
    match q.get with
    | .item r q' => r :: redisDrainFuel n q'
    | _ => []

/-- The full sequence of items obtained by repeated `get`. -/
def redisDrain (q : RedisQueue) : List Request :=
  redisDrainFuel q.entries.length q

/-! ## Ordering invariants of the two backends -/

/-- Entries tagged with a fixed priority and consecutive sequence numbers
starting at `c`: the heap contents produced by equal-priority puts. -/
def tagFrom (p : Int) : Nat → List Request → List Entry
  | _, [] => []
  | c, r :: rs => (p, c, r) :: tagFrom p (c + 1) rs

/-! ## Backend factory configuration validation

`create_queue` (`src/qcrawl/core/queues/factory.py`) reads the selected
backend's configuration mapping `cfg` from the ambient settings, modelled
here as an explicit association list. Only the parts a claim depends on
are embedded: the allowed/unexpected key computation (lines 18-19, 27-29,
108-113) and the memory branch (lines 21-30) with `ensure_int`
(`src/qcrawl/utils/settings.py:11-27`). -/

/-- A configuration value (the scalar cases of `ensure_int`'s input). -/
inductive ConfigVal where
  | int (i : Int)
  | str (s : String)
  | bool (b : Bool)
  | none_
deriving DecidableEq, Repr

/-- A backend configuration mapping. -/
abbrev Config := List (String × ConfigVal)

/-- The keys of the mapping, `cfg.keys()`. -/
def cfgKeys (cfg : Config) : List String := cfg.map (fun kv => kv.1)

/-- Lookup `cfg.get(k)`: the first binding of `k`, if any. -/
def cfgGet (cfg : Config) (k : String) : Option ConfigVal :=
  (cfg.find? (fun kv => decide (kv.1 = k))).map (fun kv => kv.2)

/-- Lines `factory.py:18-19`: the allowed key set, the union of the
mapping's own keys with the literal keys class and redis_kwargs.
Note the allowed set is derived from the configuration mapping itself. -/
def allowedKeys (cfg : Config) : List String := cfgKeys cfg ++ ["class", "redis_kwargs"]

/-- Lines `factory.py:27` and `factory.py:108`:
`unexpected = set(cfg.keys()) - allowed`. -/
def unexpectedKeys (cfg : Config) : List String :=
  (cfgKeys cfg).filter (fun k => decide (k ∉ allowedKeys cfg))

/-- Validator `ensure_int` (`settings.py:11-27`) with `allow_none=False`: `None` and
`bool` are rejected; ints pass through; numeric strings are parsed.
(The float case is not representable in `ConfigVal` and no claim uses it.) -/
def ensure_int (v : ConfigVal) : Except PyError Int :=
  match v with
  | .none_ => .error (.typeError "must be int, got None")
  | .bool _ => .error (.typeError "must be int, bool is not allowed")
  | .int i => .ok i
  | .str s =>
    match s.trim.toInt? with
    | some i => .ok i
    | none => .error (.typeError "must be int-like")

/-- The memory branch of `create_queue` (`factory.py:21-30`): validate
`maxsize`, raise on unexpected keys, construct the queue. -/
def create_queue_memory (cfg : Config) : Except PyError MemoryPriorityQueue :=
  match ensure_int ((cfgGet cfg "maxsize").getD (.int 0)) with
  | .error e => .error e
  | .ok maxsize =>
    if unexpectedKeys cfg ≠ [] then
      .error (.typeError "Unexpected memory backend keys")
    else
      MemoryPriorityQueue.create maxsize []

/-! ## Sample items used in closed statements -/

/-- A request with every field that `decode_request` drops set to a
non-default value. -/
def cexReq : Request :=
  { url := "http://e.example", cookies := some [("sid", "abc")], retries := 3,
    timeout_ms := 5000, proxy := some "http://proxy.local", ts := 42 }

/-- A request touching only the fields `decode_request` reconstructs. -/
def wReq : Request :=
  { url := "http://w.example", method := "POST",
    headers := [("User-Agent", "test")], body := some (.bytes [1, 2, 3]),
    priority := 7, meta := [("depth", .int 2)] }

/-- The low-priority item of `test_redis_priority_ordering`. -/
def rLow : Request := { url := "https://example.com/low" }

/-- The high-priority item of `test_redis_priority_ordering`. -/
def rHigh : Request := { url := "https://example.com/high" }

/-- The items of `test_put_get_order_and_fifo_tiebreak`, in put order. -/
def reqA : Request := { url := "http://low.example" }

/-- Second item put (first priority-1 item). -/
def reqB : Request := { url := "http://p1-a.example" }

/-- Third item put (second priority-1 item). -/
def reqC : Request := { url := "http://p1-b.example" }

/-- Fourth item put (second priority-5 item). -/
def reqD : Request := { url := "http://p5.example" }

/-- A request left in a closed queue. -/
def dReq : Request := { url := "http://drain.example" }

/-- The dedupe-enabled queue state holding one entry for `r` at priority
`p` (sequence 0) with `r`'s fingerprint recorded. -/
def q1ded (r : Request) (p : Int) : RedisQueue :=
  { entries := [(p, 0, r)], fingerprints := [r.fingerprint], counter := 1, dedupe := true }

/-- Same state with priority-update-on-duplicate also enabled. -/
def q1dedUp (r : Request) (p : Int) : RedisQueue :=
  { entries := [(p, 0, r)], fingerprints := [r.fingerprint], counter := 1,
    dedupe := true, update_priority := true }

/-! ## Properties and claims -/

theorem decRaw_append (d rest : List Nat) :
    decRaw d.length (d ++ rest) = some (d, rest) := by
  induction d with
  | nil => simp [decRaw]
  | cons x xs ih => simp [decRaw, ih]

theorem decStr_enc (s : String) (rest : Bytes) :
    decStr (encStr s ++ rest) = some (s, rest) := by
  have h := decRaw_append (s.data.map Char.toNat) rest
  rw [List.length_map] at h
  simp only [encStr, List.cons_append, decStr, h, Option.map_some]
  cases s
  simp [Function.comp_def, Char.ofNat_toNat]

theorem decInt_enc (i : Int) (rest : Bytes) :
    decInt (encInt i ++ rest) = some (i, rest) := by
  by_cases h : 0 ≤ i
  · simp [encInt, decInt, h, Int.toNat_of_nonneg h]
  · have h1 : 0 ≤ -i := by omega
    simp [encInt, decInt, h, Int.toNat_of_nonneg h1]

theorem decOpt_enc {α : Type} {enc : α → Bytes} {dec : Bytes → Option (α × Bytes)}
    (henc : ∀ a rest, dec (enc a ++ rest) = some (a, rest)) (o : Option α) (rest : Bytes) :
    decOpt dec (encOpt enc o ++ rest) = some (o, rest) := by
  cases o <;> simp [encOpt, decOpt, henc]

theorem decPair_enc {α β : Type} {enc₁ : α → Bytes} {enc₂ : β → Bytes}
    {dec₁ : Bytes → Option (α × Bytes)} {dec₂ : Bytes → Option (β × Bytes)}
    (h₁ : ∀ a rest, dec₁ (enc₁ a ++ rest) = some (a, rest))
    (h₂ : ∀ a rest, dec₂ (enc₂ a ++ rest) = some (a, rest)) (p : α × β) (rest : Bytes) :
    decPair dec₁ dec₂ (encPair enc₁ enc₂ p ++ rest) = some (p, rest) := by
  simp [encPair, decPair, List.append_assoc, h₁, h₂]

theorem decCount_enc {α : Type} {enc : α → Bytes} {dec : Bytes → Option (α × Bytes)}
    (henc : ∀ a rest, dec (enc a ++ rest) = some (a, rest)) (l : List α) (rest : Bytes) :
    decCount dec l.length (encEach enc l ++ rest) = some (l, rest) := by
  induction l generalizing rest with
  | nil => simp [encEach, decCount]
  | cons a l ih => simp [encEach, decCount, List.append_assoc, henc, ih]

theorem decListOf_enc {α : Type} {enc : α → Bytes} {dec : Bytes → Option (α × Bytes)}
    (henc : ∀ a rest, dec (enc a ++ rest) = some (a, rest)) (l : List α) (rest : Bytes) :
    decListOf dec (encListOf enc l ++ rest) = some (l, rest) := by
  simp [encListOf, decListOf, decCount_enc henc]

theorem decBin_enc (x : PyBin) (rest : Bytes) :
    decBin (encBin x ++ rest) = some (x, rest) := by
  cases x <;> simp [encBin, encRaw, decBin, decRaw_append]

theorem decPyValue_enc (v : PyValue) (rest : Bytes) :
    decPyValue (encPyValue v ++ rest) = some (v, rest) := by
  cases v with
  | int i => simp [encPyValue, decPyValue, decInt_enc]
  | str s => simp [encPyValue, decPyValue, decStr_enc]
  | bool b => cases b <;> simp [encPyValue, decPyValue]

theorem decStrDict_enc (d : StrDict) (rest : Bytes) :
    decStrDict (encStrDict d ++ rest) = some (d, rest) :=
  decListOf_enc (decPair_enc decStr_enc decStr_enc) d rest

theorem decMetaDict_enc (d : MetaDict) (rest : Bytes) :
    decMetaDict (encMetaDict d ++ rest) = some (d, rest) :=
  decListOf_enc (decPair_enc decStr_enc decPyValue_enc) d rest

theorem decStructFields_enc (s : RequestStruct) (rest : Bytes) :
    decStructFields (msgpack_encode s ++ rest) = some (s, rest) := by
  simp only [msgpack_encode, List.append_assoc]
  simp only [decStructFields, decStr_enc, decInt_enc,
    decOpt_enc decStrDict_enc, decOpt_enc decBin_enc, decOpt_enc decStr_enc,
    decOpt_enc decMetaDict_enc]

/-- The library round trip: decoding an encoded struct restores it exactly. -/
theorem msgpack_decode_encode (s : RequestStruct) :
    msgpack_decode (msgpack_encode s) = some s := by
  have h := decStructFields_enc s []
  rw [List.append_nil] at h
  simp [msgpack_decode, h]

/-- Decoding an encoded request always succeeds and yields exactly the
struct-reconstruction of the original. -/
theorem decode_encode_request (now_ms : Int) (r : Request) :
    decode_request (.bytes (encode_request now_ms r)) =
      .ok (requestFromStruct (structOfRequest now_ms r)) := by
  simp [decode_request, encode_request, msgpack_decode_encode]

theorem mem_insertBy {α : Type} (le : α → α → Bool) (a x : α) (l : List α) :
    x ∈ insertBy le a l ↔ x = a ∨ x ∈ l := by
  induction l with
  | nil => simp [insertBy]
  | cons y ys ih =>
    by_cases h : le a y = true
    · simp [insertBy, h]
    · rw [insertBy, if_neg h]
      simp only [List.mem_cons, ih]
      tauto

theorem pairwise_insertBy {α : Type} {le : α → α → Bool}
    (htot : ∀ a b, le a b = true ∨ le b a = true)
    (htrans : ∀ a b c, le a b = true → le b c = true → le a c = true)
    (a : α) {l : List α} (h : l.Pairwise (fun x y => le x y = true)) :
    (insertBy le a l).Pairwise (fun x y => le x y = true) := by
  induction l with
  | nil => simp [insertBy]
  | cons y ys ih =>
    rcases List.pairwise_cons.mp h with ⟨hy, hys⟩
    by_cases hle : le a y = true
    · rw [insertBy, if_pos hle]
      refine List.pairwise_cons.mpr ⟨?_, h⟩
      intro z hz
      rcases List.mem_cons.mp hz with rfl | hz
      · exact hle
      · exact htrans a y z hle (hy z hz)
    · have hya : le y a = true := (htot a y).resolve_left hle
      rw [insertBy, if_neg hle]
      refine List.pairwise_cons.mpr ⟨?_, ih hys⟩
      intro z hz
      rcases (mem_insertBy le a z ys).mp hz with rfl | hz
      · exact hya
      · exact hy z hz

theorem insertBy_append {α : Type} (le : α → α → Bool) (a : α) {l : List α}
    (h : ∀ x ∈ l, le a x = false) : insertBy le a l = l ++ [a] := by
  induction l with
  | nil => simp [insertBy]
  | cons y ys ih =>
    have hy := h y (by simp)
    simp only [insertBy, hy, Bool.false_eq_true, if_false, List.cons_append,
      List.cons.injEq, true_and]
    exact ih (fun x hx => h x (by simp [hx]))

theorem memLe_total (a b : Entry) : memLe a b = true ∨ memLe b a = true := by
  simp only [memLe, Bool.or_eq_true, Bool.and_eq_true, decide_eq_true_eq]
  omega

theorem memLe_trans (a b c : Entry) :
    memLe a b = true → memLe b c = true → memLe a c = true := by
  simp only [memLe, Bool.or_eq_true, Bool.and_eq_true, decide_eq_true_eq]
  omega

theorem redisLe_total (a b : Entry) : redisLe a b = true ∨ redisLe b a = true := by
  simp only [redisLe, Bool.or_eq_true, Bool.and_eq_true, decide_eq_true_eq]
  omega

theorem redisLe_trans (a b c : Entry) :
    redisLe a b = true → redisLe b c = true → redisLe a c = true := by
  simp only [redisLe, Bool.or_eq_true, Bool.and_eq_true, decide_eq_true_eq]
  omega

theorem memDrain_eq_map (q : MemoryPriorityQueue) :
    memDrain q = q.heap.map (fun e => e.2.2) := by
  suffices h : ∀ (l : List Entry) (c : Nat) (m : Int) (cl : Bool),
      memDrain ⟨l, c, m, cl⟩ = l.map (fun e => e.2.2) by
    cases q
    apply h
  intro l
  induction l with
  | nil => intro c m cl; simp [memDrain, memDrainFuel]
  | cons e rest ih =>
    intro c m cl
    simp only [memDrain, List.length_cons, memDrainFuel, MemoryPriorityQueue.get,
      List.map_cons, List.cons.injEq, true_and]
    simpa [memDrain] using ih c m cl

theorem redisDrain_eq_map (q : RedisQueue) :
    redisDrain q = q.entries.map (fun e => e.2.2) := by
  suffices h : ∀ (l : List Entry) (fp : List Fingerprint) (c : Nat) (d u cl : Bool),
      redisDrain ⟨l, fp, c, d, u, cl⟩ = l.map (fun e => e.2.2) by
    cases q
    apply h
  intro l
  induction l with
  | nil => intro fp c d u cl; simp [redisDrain, redisDrainFuel]
  | cons e rest ih =>
    intro fp c d u cl
    simp only [redisDrain, List.length_cons, redisDrainFuel, RedisQueue.get,
      List.map_cons, List.cons.injEq, true_and]
    simpa [redisDrain] using ih fp c d u cl

theorem memPutStep_pairwise (q : MemoryPriorityQueue) (r : Request) (p : Int)
    (h : q.heap.Pairwise (fun a b => memLe a b = true)) :
    (memPutStep q r p).heap.Pairwise (fun a b => memLe a b = true) := by
  unfold memPutStep MemoryPriorityQueue.put
  split_ifs with h1 h2
  · exact h
  · exact h
  · exact pairwise_insertBy memLe_total memLe_trans _ h

theorem memPutAll_pairwise (ops : List (Request × Int)) :
    ∀ q : MemoryPriorityQueue, q.heap.Pairwise (fun a b => memLe a b = true) →
    (memPutAll q ops).heap.Pairwise (fun a b => memLe a b = true) := by
  induction ops with
  | nil => intro q h; exact h
  | cons op rest ih =>
    intro q h
    exact ih (memPutStep q op.1 op.2) (memPutStep_pairwise q op.1 op.2 h)

theorem redisPut_pairwise (q : RedisQueue) (r : Request) (p : Option Int)
    (h : q.entries.Pairwise (fun a b => redisLe a b = true)) :
    (q.put r p).entries.Pairwise (fun a b => redisLe a b = true) := by
  unfold RedisQueue.put
  split_ifs with h1 h2 h3 h4
  · exact h
  · simp only
    unfold redisUpdatePrio
    cases hf : q.entries.find? (fun e => decide (e.2.2.fingerprint = r.fingerprint)) with
    | none => exact h
    | some e =>
      exact pairwise_insertBy redisLe_total redisLe_trans _
        (h.sublist (List.erase_sublist e q.entries))
  · exact h
  · exact pairwise_insertBy redisLe_total redisLe_trans _ h
  · exact pairwise_insertBy redisLe_total redisLe_trans _ h

theorem redisPutAll_pairwise (ops : List (Request × Int)) :
    ∀ q : RedisQueue, q.entries.Pairwise (fun a b => redisLe a b = true) →
    (redisPutAll q ops).entries.Pairwise (fun a b => redisLe a b = true) := by
  induction ops with
  | nil => intro q h; exact h
  | cons op rest ih =>
    intro q h
    exact ih (q.put op.1 (some op.2)) (redisPut_pairwise q op.1 (some op.2) h)

theorem tagFrom_map (p : Int) (c : Nat) (rs : List Request) :
    (tagFrom p c rs).map (fun e => e.2.2) = rs := by
  induction rs generalizing c with
  | nil => rfl
  | cons r rs ih => simp [tagFrom, ih]

theorem memPutAll_const_heap (p : Int) (rs : List Request) :
    ∀ q : MemoryPriorityQueue, q.closed = false → q.maxsize = 0 →
    (∀ e ∈ q.heap, e.1 = p ∧ e.2.1 < q.counter) →
    (memPutAll q (rs.map (fun r => (r, p)))).heap = q.heap ++ tagFrom p q.counter rs := by
  induction rs with
  | nil => intro q _ _ _; simp [memPutAll, tagFrom]
  | cons r rs ih =>
    intro q hcl hmax hinv
    have hstep : memPutStep q r p =
        { q with heap := q.heap ++ [(p, q.counter, r)], counter := q.counter + 1 } := by
      unfold memPutStep MemoryPriorityQueue.put
      rw [if_neg (by simp [hcl]), if_neg (by simp [hmax])]
      simp only [Option.getD_some, MemPutResult.ok.injEq]
      rw [insertBy_append]
      intro x hx
      rcases hinv x hx with ⟨hx1, hx2⟩
      simp only [memLe, Bool.or_eq_false_iff, Bool.and_eq_false_iff,
        decide_eq_false_iff_not]
      omega
    have hnext := ih { q with heap := q.heap ++ [(p, q.counter, r)], counter := q.counter + 1 }
      (by simp [hcl]) (by simp [hmax]) ?_
    · simp only [List.map_cons, memPutAll, hstep]
      rw [hnext]
      simp [tagFrom, List.append_assoc]
    · intro e he
      simp only [List.mem_append, List.mem_singleton] at he
      rcases he with he | rfl
      · rcases hinv e he with ⟨h1, h2⟩
        exact ⟨h1, show e.2.1 < q.counter + 1 by omega⟩
      · exact ⟨rfl, show q.counter < q.counter + 1 by omega⟩

/-- C1, counterexample: the full-equality round trip fails. For a request
with cookies, a retry count, a timeout, a proxy and a timestamp set,
`decode_request(encode_request(r))` is not equal to `r`: `decode_request`
(`_msgspec.py:82-89`) does not pass those fields to the reconstructed
`Request`, so they revert to constructor defaults. -/
theorem c1_roundtrip_counterexample :
    decode_request (PyObj.bytes (encode_request 1700000000000 cexReq)) ≠
      Except.ok cexReq := by
  rw [decode_encode_request]
  simp only [ne_eq, Except.ok.injEq]
  decide

/-- C1, amended: the round trip `decode_request(encode_request(r)) = r`
holds exactly on the fields the decoder reconstructs — url, method,
headers, body, priority, meta — i.e. for every request whose cookies,
proxy and timestamp are absent, whose retry count and timeout are at their
defaults, and whose body (if present) is of the `bytes` type. -/
theorem c1_roundtrip_amended (now_ms : Int) (r : Request)
    (hc : r.cookies = none) (hr : r.retries = 0) (ht : r.timeout_ms = 10000)
    (hp : r.proxy = none) (hts : r.ts = 0) (hb : r.body.all PyBin.isBytes = true) :
    decode_request (PyObj.bytes (encode_request now_ms r)) = Except.ok r := by
  rw [decode_encode_request]
  suffices h : requestFromStruct (structOfRequest now_ms r) = r by rw [h]
  obtain ⟨u, m, hd, ck, bd, pr, rt, tm, px, mt, t⟩ := r
  dsimp only at hc hr ht hp hts hb
  subst hc hr ht hp hts
  cases bd with
  | none => rfl
  | some bb =>
    cases bb with
    | bytes d => rfl
    | bytearray d => simp [PyBin.isBytes] at hb

/-- Witness for C1 (amended): a concrete POST request with headers, body,
priority and metadata round-trips exactly. -/
theorem c1_roundtrip_amended_witness :
    decode_request (PyObj.bytes (encode_request 1700000000000 wReq)) = Except.ok wReq :=
  c1_roundtrip_amended 1700000000000 wReq rfl rfl rfl rfl rfl rfl

/-- C2, counterexample: the ascending convention does not hold uniformly.
On the distributed backend, after enqueueing an item at priority 1 and an
item at priority 10, draining returns the priority-10 item first (the
behaviour `test_redis_priority_ordering` demands), so the item at the
lower priority p1 = 1 is not returned before the item at p2 = 10. -/
theorem c2_uniform_ascending_counterexample :
    redisDrain (redisPutAll redisFresh [(rLow, 1), (rHigh, 10)]) = [rHigh, rLow]
  ∧ rHigh ≠ rLow := by
  constructor
  · decide
  · decide

/-- C2, amended: the backends order oppositely. After any sequence of puts
on a fresh queue, the local backend's ready entries are in ascending
priority order and the distributed backend's are in descending priority
order — and in both cases repeated `get` returns exactly the ready
entries' items front to back. -/
theorem c2_ordering_amended (ops : List (Request × Int)) :
    ((memPutAll memFresh ops).heap.map (fun e => e.1)).Pairwise (fun a b => a ≤ b)
  ∧ ((redisPutAll redisFresh ops).entries.map (fun e => e.1)).Pairwise (fun a b => b ≤ a)
  ∧ memDrain (memPutAll memFresh ops) = (memPutAll memFresh ops).heap.map (fun e => e.2.2)
  ∧ redisDrain (redisPutAll redisFresh ops)
      = (redisPutAll redisFresh ops).entries.map (fun e => e.2.2) := by
  refine ⟨?_, ?_, memDrain_eq_map _, redisDrain_eq_map _⟩
  · refine List.Pairwise.map _ (fun a b hab => ?_)
      (memPutAll_pairwise ops memFresh (by simp [memFresh]))
    simp only [memLe, Bool.or_eq_true, Bool.and_eq_true, decide_eq_true_eq] at hab
    omega
  · refine List.Pairwise.map _ (fun a b hab => ?_)
      (redisPutAll_pairwise ops redisFresh (by simp [redisFresh]))
    simp only [redisLe, Bool.or_eq_true, Bool.and_eq_true, decide_eq_true_eq] at hab
    omega

/-- C3: on the local queue, any sequence of equal-priority puts drains in
insertion order (strict FIFO tie-break by sequence number); and the
concrete [5,1,1,5] scenario drains as the two priority-1 items in their
original relative order followed by the two priority-5 items in theirs. -/
theorem c3_fifo_tiebreak :
    (∀ (p : Int) (rs : List Request),
      memDrain (memPutAll memFresh (rs.map (fun r => (r, p)))) = rs)
  ∧ memDrain (memPutAll memFresh [(reqA, 5), (reqB, 1), (reqC, 1), (reqD, 5)])
      = [reqB, reqC, reqA, reqD] := by
  constructor
  · intro p rs
    rw [memDrain_eq_map, memPutAll_const_heap p rs memFresh rfl rfl (by simp [memFresh])]
    simp [memFresh, tagFrom_map]
  · decide

/-- C4: the factory's unknown-key rejection is dead code. The `unexpected`
set (`factory.py:27` and `factory.py:108`) is always empty because the
allowed set is derived from the very mapping being checked
(`factory.py:18-19`), so a configuration with an unrecognized key — here
`foo` for the memory backend — constructs a queue instead of raising. -/
theorem c4_unknown_keys_never_rejected :
    (∀ cfg : Config, unexpectedKeys cfg = [])
  ∧ create_queue_memory [("foo", ConfigVal.int 1)] = .ok ({} : MemoryPriorityQueue) := by
  constructor
  · intro cfg
    rw [unexpectedKeys, List.filter_eq_nil_iff]
    intro k hk
    simp [allowedKeys, List.mem_append, hk]
  · rfl

/-- C5: after `close()`, `put` is a silent no-op — it returns the queue
unchanged (so nothing is raised and `size()` is unchanged), both on the
immediately-closed queue and on every state with the closed flag set. -/
theorem c5_put_after_close_noop (q : MemoryPriorityQueue) (r : Request) (p : Option Int) :
    q.close.put r p = MemPutResult.ok q.close
  ∧ (q.closed = true → q.put r p = MemPutResult.ok q) := by
  constructor
  · simp [MemoryPriorityQueue.close, MemoryPriorityQueue.put]
  · intro h
    simp [MemoryPriorityQueue.put, h]

/-- Witness for C5: a concrete closed queue accepts a `put` as a no-op. -/
theorem c5_put_after_close_noop_witness :
    ({ closed := true } : MemoryPriorityQueue).put { url := "http://x.example" } none
      = MemPutResult.ok { closed := true } :=
  (c5_put_after_close_noop { closed := true } { url := "http://x.example" } none).2 rfl

/-- C6: on a closed queue (either backend), `get` yields the cooperative
cancellation outcome when no entries remain, and still returns the
best-ranked remaining entry otherwise (drain before signalling done). -/
theorem c6_closed_get_drains_then_cancels :
    (∀ q : MemoryPriorityQueue, q.closed = true →
      (q.heap = [] → q.get = MemGetResult.cancelled)
    ∧ ∀ e rest, q.heap = e :: rest →
        q.get = MemGetResult.item e.2.2 { q with heap := rest })
  ∧ (∀ q : RedisQueue, q.closed = true →
      (q.entries = [] → q.get = RedisGetResult.cancelled)
    ∧ ∀ e rest, q.entries = e :: rest →
        q.get = RedisGetResult.item e.2.2 { q with entries := rest }) := by
  constructor
  · intro q hc
    constructor
    · intro he
      simp [MemoryPriorityQueue.get, he, hc]
    · intro e rest he
      simp [MemoryPriorityQueue.get, he]
  · intro q hc
    constructor
    · intro he
      simp [RedisQueue.get, he, hc]
    · intro e rest he
      simp [RedisQueue.get, he]

/-- Witness for C6: a concrete closed empty local queue cancels; a
concrete closed distributed queue with one entry still hands it out. -/
theorem c6_closed_get_witness :
    ({ closed := true } : MemoryPriorityQueue).get = MemGetResult.cancelled
  ∧ ({ entries := [(3, 0, dReq)], closed := true } : RedisQueue).get
      = RedisGetResult.item dReq { entries := [], closed := true } := by
  constructor
  · exact (c6_closed_get_drains_then_cancels.1 { closed := true } rfl).1 rfl
  · exact (c6_closed_get_drains_then_cancels.2
      { entries := [(3, 0, dReq)], closed := true } rfl).2 (3, 0, dReq) [] rfl

/-- C7: with dedupe enabled, two puts of the same fingerprint leave
`size()` at 1 and one `get()` brings it to 0; with
priority-update-on-duplicate also set, the size is still 1 and the single
entry carries the second put's priority (same sequence number). -/
theorem c7_dedupe_size (r : Request) (p p' : Int) :
    ((redisFreshDedupe.put r (some p)).put r (some p')).size = 1
  ∧ ((redisFreshDedupe.put r (some p)).put r (some p')).get
      = RedisGetResult.item r
          { (redisFreshDedupe.put r (some p)).put r (some p') with entries := [] }
  ∧ ((redisFreshDedupeUp.put r (some p)).put r (some p')).size = 1
  ∧ ((redisFreshDedupeUp.put r (some p)).put r (some p')).entries = [(p', 0, r)] := by
  have h1 : redisFreshDedupe.put r (some p) = q1ded r p := by
    simp [redisFreshDedupe, RedisQueue.put, insertBy, q1ded]
  have h2 : (q1ded r p).put r (some p') = q1ded r p := by
    simp [RedisQueue.put, q1ded]
  have h3 : redisFreshDedupeUp.put r (some p) = q1dedUp r p := by
    simp [redisFreshDedupeUp, RedisQueue.put, insertBy, q1dedUp]
  have h4 : (q1dedUp r p).put r (some p') = q1dedUp r p' := by
    simp [RedisQueue.put, q1dedUp, redisUpdatePrio, insertBy, List.find?,
      List.erase_cons_head]
  rw [h1, h2, h3, h4]
  refine ⟨rfl, ?_, rfl, rfl⟩
  simp [RedisQueue.get, q1ded]

/-- C8: constructing the local queue with a negative `maxsize` raises the
capacity error, and constructing it with any unrecognized keyword raises
the config (type) error. -/
theorem c8_init_validation :
    (∀ m : Int, m < 0 →
      MemoryPriorityQueue.create m [] = .error (.valueError "maxsize must be non-negative"))
  ∧ (∀ (m : Int) (ks : List String), ks ≠ [] →
      MemoryPriorityQueue.create m ks = .error (.typeError "unexpected keyword arguments")) := by
  constructor
  · intro m hm
    simp [MemoryPriorityQueue.create, hm, not_le_of_lt hm]
  · intro m ks hk
    simp [MemoryPriorityQueue.create, hk]

/-- Witness for C8: `maxsize=-1` raises the capacity error and an
unrecognized `foo` option raises the config error. -/
theorem c8_init_validation_witness :
    MemoryPriorityQueue.create (-1) [] = .error (.valueError "maxsize must be non-negative")
  ∧ MemoryPriorityQueue.create 0 ["foo"] = .error (.typeError "unexpected keyword arguments") :=
  ⟨c8_init_validation.1 (-1) (by decide), c8_init_validation.2 0 ["foo"] (by decide)⟩

/-- C9: `decode_request` separates its failure classes: every non-bytes
input raises the `TypeError`, and every bytes input the schema decoder
rejects raises the distinct `DecodeError`. -/
theorem c9_decode_failure_modes :
    (∀ x : PyObj, x.isBytesObj = false →
      decode_request x = .error (.typeError "decode_request expects bytes"))
  ∧ (∀ b : Bytes, msgpack_decode b = none →
      decode_request (PyObj.bytes b) = .error .decodeError) := by
  constructor
  · intro x hx
    cases x with
    | bytes b => simp [PyObj.isBytesObj] at hx
    | bytearray b => rfl
    | str s => rfl
    | int i => rfl
    | pynone => rfl
  · intro b hb
    simp [decode_request, hb]

/-- Witness for C9: a non-bytes input (an int) raises the type error; the
empty byte string fails schema decoding with the decode error. -/
theorem c9_decode_failure_modes_witness :
    decode_request (PyObj.int 3) = .error (.typeError "decode_request expects bytes")
  ∧ decode_request (PyObj.bytes []) = .error .decodeError :=
  ⟨c9_decode_failure_modes.1 (PyObj.int 3) rfl, c9_decode_failure_modes.2 [] rfl⟩

/-- C10: for every payload the schema decoder accepts, `decode_request`
returns the struct-reconstruction whose headers and meta are mappings —
an absent (`None`) headers/meta decodes to the empty mapping — and whose
body, when present, is of the `bytes` type with the stored byte content
(a `bytearray` body is converted). -/
theorem c10_decode_normalisation (b : Bytes) (s : RequestStruct)
    (h : msgpack_decode b = some s) :
    decode_request (PyObj.bytes b) = Except.ok (requestFromStruct s)
  ∧ (s.headers = none → (requestFromStruct s).headers = [])
  ∧ (s.meta = none → (requestFromStruct s).meta = [])
  ∧ (requestFromStruct s).body.all PyBin.isBytes = true
  ∧ (requestFromStruct s).body.map PyBin.data = s.body.map PyBin.data := by
  refine ⟨by simp [decode_request, h], ?_, ?_, ?_, ?_⟩
  · intro hh
    simp [requestFromStruct, hh, pyOrEmpty]
  · intro hm
    simp [requestFromStruct, hm, pyOrEmpty]
  · cases hsb : s.body with
    | none => simp [requestFromStruct, normBody, hsb]
    | some bb => cases bb <;> simp [requestFromStruct, normBody, hsb, PyBin.isBytes]
  · cases hsb : s.body with
    | none => simp [requestFromStruct, normBody, hsb]
    | some bb => cases bb <;> simp [requestFromStruct, normBody, hsb, PyBin.data]

/-- Witness for C10: a concrete accepted payload — the encoding of a
minimal struct with absent headers — decodes with an empty headers map. -/
theorem c10_decode_normalisation_witness :
    decode_request (PyObj.bytes (msgpack_encode { url := "u" }))
      = Except.ok (requestFromStruct { url := "u" })
  ∧ (requestFromStruct ({ url := "u" } : RequestStruct)).headers = [] := by
  have h := c10_decode_normalisation (msgpack_encode { url := "u" }) { url := "u" }
    (msgpack_decode_encode { url := "u" })
  exact ⟨h.1, h.2.1 rfl⟩

end QCrawl
